import Mathlib

/-!
Verification development for the SkillLens assessment delivery and grading
engine.  The delivery layer (`src/frontend/src/app/mock-test/page.tsx`) is
embedded from the source; the grading engine itself has no implementation in
the repository, so its operations are modelled from the specification and
marked as such in their doc comments.
-/

namespace SkillLens

/-- Question type tags, from the `QuestionType` union in
`src/frontend/src/app/mock-test/page.tsx` (line 8). -/
inductive QuestionType where
  | multiple_choice
  | code
  | theoretical
  | coding
  | aptitude
deriving DecidableEq, Repr

/-- Difficulty tags, from the `Difficulty` union in `page.tsx` (line 9). -/
inductive Difficulty where
  | beginner
  | intermediate
  | advanced
deriving DecidableEq, Repr

/-- The client-facing `Question` interface of `page.tsx` (lines 11–20).
Note it carries no `reference_answer` field. -/
structure Question where
  question_id : String
  skill : String
  question_text : String
  question_type : QuestionType
  difficulty : Difficulty
  options : Option (List String)
  points : Nat
  code_template : Option String
deriving DecidableEq, Repr

/-- The `AssessmentResponse` interface of `page.tsx` (lines 22–28). -/
structure AssessmentResponse where
  assessment_id : String
  skill : String
  questions : List Question
  total_points : Nat
  time_limit_minutes : Nat
deriving DecidableEq, Repr

/-- The `AssessmentResult` interface of `page.tsx` (lines 30–38). -/
structure AssessmentResult where
  score : Nat
  max_score : Nat
  percentage : Nat
  confidence_level : String
  passed : Bool
  feedback : List String
  recommendations : List String
deriving DecidableEq, Repr

/-- One answer entry of the submission request (`page.tsx` lines 86–89). -/
structure AnswerRecord where
  question_id : String
  user_answer : String
deriving DecidableEq, Repr

/-- Source `page.tsx` line 112:
`assessment.questions.slice(currentStep * 5, (currentStep + 1) * 5)`.
JavaScript `slice(a, b)` on an array is `drop a` followed by `take (b - a)`. -/
def currentQuestions (qs : List Question) (step : Nat) : List Question :=
  (qs.drop (step * 5)).take 5

/-- The five display sections the page shows, steps `0` through `4`
(`page.tsx` lines 112–113: `isLastStep = currentStep === 4`). -/
def displaySections (qs : List Question) : List (List Question) :=
  (List.range 5).map (currentQuestions qs)

/-- The React `answers` state (`page.tsx` line 45), a JavaScript object
`Record<string, string>` modelled as an insertion-ordered association list. -/
abbrev Answers := List (String × String)

/-- Lookup `answers[qid]` (first matching key; keys are unique in a JS
object, so at most one entry matches). -/
def lookupAnswer : Answers → String → Option String
  | [], _ => none
  | (k, v) :: rest, q => if k = q then some v else lookupAnswer rest q

/-- The update `setAnswers({ ...answers, [qid]: v })` (`page.tsx` lines 286, 303):
an existing key keeps its position and gets the new value; a new key is
appended, matching JavaScript object spread semantics. -/
def setAnswer : Answers → String → String → Answers
  | [], q, v => [(q, v)]
  | (k, w) :: rest, q, v =>
      if k = q then (k, v) :: rest else (k, w) :: setAnswer rest q v

/-- The `answers` state after a sequence of answer-entry events, each one an
`onChange` firing `setAnswers({ ...answers, [qid]: value })`, starting from
the initial empty object (`page.tsx` line 45). -/
def applyEvents (evs : List (String × String)) : Answers :=
  evs.foldl (fun a e => setAnswer a e.1 e.2) []

/-- Source `page.tsx` lines 86–89: the submission's answers are
`Object.entries(answers).map(([qid, ans]) => ({ question_id: qid, user_answer: ans }))`. -/
def submissionAnswers (a : Answers) : List AnswerRecord :=
  a.map (fun e => ⟨e.1, e.2⟩)

/-- JavaScript `String.prototype.startsWith`, used by the result screen
(`page.tsx` lines 166, 171): character-level prefix test. -/
def jsStartsWith (s p : String) : Bool :=
  p.data.isPrefixOf s.data

/-- JavaScript `a || b` on strings, where `a` may be `undefined`:
the empty string is falsy, so it falls through to `b`. -/
def jsOrString (a : Option String) (b : String) : String :=
  match a with
  | some s => if s = "" then b else s
  | none => b

/-- The coding textarea's displayed value
(`page.tsx` line 285): `answers[q.question_id] || q.code_template || ''`. -/
def codingEditorValue (a : Answers) (qid : String) (tmpl : Option String) : String :=
  jsOrString (lookupAnswer a qid) (jsOrString tmpl "")

/-- The "Areas for Improvement" panel's rendered lines (`page.tsx` line 166):
`result.feedback.filter(f => f.startsWith('✗')).slice(0, 5)`. -/
def displayedImprovements (feedback : List String) : List String :=
  (feedback.filter (fun f => jsStartsWith f "✗")).take 5

/-- Source `page.tsx` line 171: the encouraging default is rendered exactly when
`result.feedback.filter(f => f.startsWith('✗')).length === 0`. -/
def showsEncouragingDefault (feedback : List String) : Bool :=
  (feedback.filter (fun f => jsStartsWith f "✗")).length == 0

/-- Modelled from the spec: the internal Question record (§3) as held by the
Question Bank and the engine; unlike the client-facing `Question` it carries
the `reference_answer` (correct option, expected-output rubric for coding, or
model answer for theoretical). -/
structure BankQuestion where
  question_id : String
  skill : String
  question_text : String
  question_type : QuestionType
  difficulty : Difficulty
  options : Option (List String)
  points : Nat
  reference_answer : String
  code_template : Option String
deriving DecidableEq, Repr

/-- Modelled from the spec: the redaction applied when building the
generation response (§6) — every field of the client `Question` is copied
from the internal record, and `reference_answer` has no counterpart. -/
def toClientQuestion (q : BankQuestion) : Question :=
  { question_id := q.question_id
    skill := q.skill
    question_text := q.question_text
    question_type := q.question_type
    difficulty := q.difficulty
    options := q.options
    points := q.points
    code_template := q.code_template }

/-- Modelled from the spec: the curriculum bucket counts (§4.1) — adjustable
only via configuration. -/
structure Curriculum where
  beginnerCount : Nat
  intermediateCount : Nat
  advancedCount : Nat
  aptitudeCount : Nat
  codingCount : Nat
deriving DecidableEq, Repr

/-- Modelled from the spec: the default curriculum — 5 beginner technical,
5 intermediate technical, 5 advanced technical, 5 aptitude/logic, 1 coding
(21 questions total). -/
def defaultCurriculum : Curriculum :=
  { beginnerCount := 5
    intermediateCount := 5
    advancedCount := 5
    aptitudeCount := 5
    codingCount := 1 }

/-- Modelled from the spec: a generated Assessment (§3), holding the ordered,
section-partitioned question list, the computed `total_points` and the
configured time limit. -/
structure Assessment where
  assessment_id : String
  skill : String
  questions : List BankQuestion
  total_points : Nat
  time_limit_minutes : Nat
deriving DecidableEq, Repr

/-- Modelled from the spec: whether a bank question belongs to a technical
bucket for `sk` at difficulty `d` (multiple-choice technical questions
filtered by skill, §4.1). -/
def inTechBucket (sk : String) (d : Difficulty) (q : BankQuestion) : Bool :=
  q.question_type = QuestionType.multiple_choice ∧ q.difficulty = d ∧ q.skill = sk

/-- Modelled from the spec: whether a bank question belongs to the
aptitude/logic bucket (skill-agnostic, §4.1). -/
def inAptitudeBucket (q : BankQuestion) : Bool :=
  q.question_type = QuestionType.aptitude

/-- Modelled from the spec: whether a bank question belongs to the coding
bucket for `sk` (§4.1). -/
def inCodingBucket (sk : String) (q : BankQuestion) : Bool :=
  q.question_type = QuestionType.coding ∧ q.skill = sk

/-- Modelled from the spec: draw `count` questions without replacement from
the bank entries matching `p`, in bank order (a deterministic selector,
§4.1); `none` when the bank cannot supply `count` such questions
(`InsufficientBank`). -/
def drawBucket (bank : List BankQuestion) (p : BankQuestion → Bool)
    (count : Nat) : Option (List BankQuestion) :=
  let pool := bank.filter p
  if count ≤ pool.length then some (pool.take count) else none

/-- Modelled from the spec: the total point value of a drawn bucket. -/
def bucketPoints (b : List BankQuestion) : Nat :=
  (b.map (fun q => q.points)).sum

/-- Modelled from the spec: `compose(user_id, skill) -> Assessment` (§4.1) —
draw each curriculum bucket from the bank, concatenate the buckets in
curriculum order, compute `total_points` from the drawn questions (never
configured directly), and assign the configured time limit; `none` models
the `InsufficientBank` failure. -/
def compose (c : Curriculum) (bank : List BankQuestion) (aid sk : String) :
    Option Assessment :=
  match drawBucket bank (inTechBucket sk Difficulty.beginner) c.beginnerCount,
      drawBucket bank (inTechBucket sk Difficulty.intermediate) c.intermediateCount,
      drawBucket bank (inTechBucket sk Difficulty.advanced) c.advancedCount,
      drawBucket bank inAptitudeBucket c.aptitudeCount,
      drawBucket bank (inCodingBucket sk) c.codingCount with
  | some beg, some inter, some adv, some apt, some cod =>
      some
        { assessment_id := aid
          skill := sk
          questions := beg ++ inter ++ adv ++ apt ++ cod
          total_points :=
            bucketPoints beg + bucketPoints inter + bucketPoints adv +
              bucketPoints apt + bucketPoints cod
          time_limit_minutes := 45 }
  | _, _, _, _, _ => none

/-- Modelled from the spec: the generation response (§6) — the Assessment
with every question redacted to its client-facing form; reference answers
and rubrics are never included. -/
def toResponse (a : Assessment) : AssessmentResponse :=
  { assessment_id := a.assessment_id
    skill := a.skill
    questions := a.questions.map toClientQuestion
    total_points := a.total_points
    time_limit_minutes := a.time_limit_minutes }

/-- Modelled from the spec: Assessment session status (§3): open, submitted
or expired. -/
inductive SessionStatus where
  | opened
  | submitted
  | expired
deriving DecidableEq, Repr

/-- Modelled from the spec: one stored session — an Assessment together with
its lifecycle status (§4.2). -/
structure Session where
  assessment : Assessment
  status : SessionStatus
deriving DecidableEq, Repr

/-- Modelled from the spec: the Session Store (§4.2), a keyed store from
`assessment_id` to its session state, as an association list. -/
abbrev Store := List (String × Session)

/-- Modelled from the spec: store lookup by `assessment_id`. -/
def storeGet : Store → String → Option Session
  | [], _ => none
  | (k, s) :: rest, aid => if k = aid then some s else storeGet rest aid

/-- Modelled from the spec: in-place update of the session stored under a
key, leaving every other key untouched. -/
def storeSet : Store → String → Session → Store
  | [], _, _ => []
  | (k, s) :: rest, aid, s' =>
      if k = aid then (k, s') :: rest else (k, s) :: storeSet rest aid s'

/-- Modelled from the spec: the error taxonomy of §7 that grading can
surface. -/
inductive GradeError where
  | NotFound
  | Expired
  | AlreadySubmitted
  | InsufficientBank
deriving DecidableEq, Repr

/-- Modelled from the spec: `put(Assessment)` stores it keyed by
`assessment_id` with status open (§4.2). -/
def storePut (st : Store) (a : Assessment) : Store :=
  st ++ [(a.assessment_id, { assessment := a, status := SessionStatus.opened })]

/-- Modelled from the spec: `get(assessment_id)` (§4.2) — `NotFound` if
absent, `Expired` if the session has expired, otherwise the session. -/
def getSession (st : Store) (aid : String) : Except GradeError Session :=
  match storeGet st aid with
  | none => Except.error GradeError.NotFound
  | some s =>
      match s.status with
      | SessionStatus.expired => Except.error GradeError.Expired
      | _ => Except.ok s

/-- Modelled from the spec: `markSubmitted(assessment_id)` (§4.2) — fails
with `AlreadySubmitted` if status ≠ open, otherwise transitions the session
to submitted; exactly one caller may win this transition. -/
def markSubmitted (st : Store) (aid : String) : Except GradeError Store :=
  match storeGet st aid with
  | none => Except.error GradeError.NotFound
  | some s =>
      match s.status with
      | SessionStatus.opened =>
          Except.ok (storeSet st aid { s with status := SessionStatus.submitted })
      | _ => Except.error GradeError.AlreadySubmitted

/-- Modelled from the spec: a Submission (§3) — `assessment_id`, `user_id`
and the ordered list of AnswerRecords. -/
structure Submission where
  assessment_id : String
  user_id : String
  answers : List AnswerRecord
deriving DecidableEq, Repr

/-- Modelled from the spec: the per-question grading outcome (§4.3 and the
glossary) — points awarded plus correctness/answered/ungraded flags, tagged
with the question's skill and difficulty for feedback synthesis. -/
structure Outcome where
  question_id : String
  skill : String
  difficulty : Difficulty
  answered : Bool
  correct : Bool
  ungraded : Bool
  awarded : Nat
  points : Nat
deriving DecidableEq, Repr

/-- Modelled from the spec: the pluggable coding evaluator capability
(§4.3) — given the question's expected-output rubric and the submitted code
it returns a fractional score in `[0,1]` as a numerator/denominator pair;
`none` models an unavailable evaluator. -/
abbrev CodingEval := Option (String → String → Nat × Nat)

/-- Modelled from the spec: the answer the grader uses for a question —
the last matching AnswerRecord (last-write-wins for duplicate
`question_id`, §9); `none` when the question is unanswered. -/
def answerFor (answers : List AnswerRecord) (qid : String) : Option String :=
  answers.foldl
    (fun acc r => if r.question_id = qid then some r.user_answer else acc) none

/-- Modelled from the spec: trimming surrounding whitespace from a string
for the closed-form comparison, realised over the string's characters. -/
def trimChars (l : List Char) : List Char :=
  ((l.dropWhile Char.isWhitespace).reverse.dropWhile Char.isWhitespace).reverse

/-- Modelled from the spec: the whitespace-trim used by the closed-form
comparison. -/
def strTrim (s : String) : String :=
  String.mk (trimChars s.data)

/-- Modelled from the spec: closed-form grading (§4.3) for multiple_choice,
theoretical and aptitude questions — correct iff `user_answer` equals
`reference_answer` under exact, case-sensitive, whitespace-trimmed
comparison; full points or zero, no partial credit. -/
def closedFormCorrect (q : BankQuestion) (ans : String) : Bool :=
  strTrim ans = strTrim q.reference_answer

/-- Modelled from the spec: grading one question against its (optional)
answer (§4.3), dispatched by question type; an unanswered question scores 0;
a coding answer is scored by the evaluator (fraction times points, rounded
down), or 0 and flagged ungraded when the evaluator is unavailable. -/
def gradeQuestion (ev : CodingEval) (q : BankQuestion) (ans? : Option String) :
    Outcome :=
  match ans? with
  | none =>
      { question_id := q.question_id, skill := q.skill,
        difficulty := q.difficulty, answered := false, correct := false,
        ungraded := false, awarded := 0, points := q.points }
  | some ans =>
      match q.question_type with
      | QuestionType.coding | QuestionType.code =>
          match ev with
          | none =>
              { question_id := q.question_id, skill := q.skill,
                difficulty := q.difficulty, answered := true, correct := false,
                ungraded := true, awarded := 0, points := q.points }
          | some f =>
              let fr := f q.reference_answer ans
              let awarded := if fr.2 = 0 then 0 else fr.1 * q.points / fr.2
              { question_id := q.question_id, skill := q.skill,
                difficulty := q.difficulty, answered := true,
                correct := awarded = q.points, ungraded := false,
                awarded := awarded, points := q.points }
      | _ =>
          let ok := closedFormCorrect q ans
          { question_id := q.question_id, skill := q.skill,
            difficulty := q.difficulty, answered := true, correct := ok,
            ungraded := false, awarded := if ok then q.points else 0,
            points := q.points }

/-- Modelled from the spec: the per-question outcomes of a submission, one
per Assessment question in question order (§4.3); AnswerRecords whose
`question_id` is not in the Assessment are ignored and grading continues. -/
def gradeOutcomes (ev : CodingEval) (a : Assessment)
    (answers : List AnswerRecord) : List Outcome :=
  a.questions.map (fun q => gradeQuestion ev q (answerFor answers q.question_id))

/-- Modelled from the spec: percentage = round(100 × score / max_score),
defined as 0 when max_score = 0 (§4.3); round-half-up realised on naturals
as `(200 * score + max) / (2 * max)`. -/
def percentageOf (score maxScore : Nat) : Nat :=
  if maxScore = 0 then 0 else (200 * score + maxScore) / (2 * maxScore)

/-- Modelled from the spec: the configured pass threshold (§4.4, e.g. 60). -/
def passThreshold : Nat := 60

/-- Modelled from the spec: the confidence label cut points (§4.4), a fixed
configuration thresholding the percentage, monotone in it. -/
def classifyLevel (pct : Nat) : String :=
  if 85 ≤ pct then "Expert"
  else if 70 ≤ pct then "Advanced"
  else if 50 ≤ pct then "Intermediate"
  else "Beginner"

/-- Modelled from the spec: whether an outcome is a weakness — incorrect or
unanswered (§4.5). -/
def isWeakness (o : Outcome) : Bool :=
  !o.answered || !o.correct

/-- Modelled from the spec: the weakness feedback line for one outcome,
carrying the uniform leading negative marker and naming the question's
skill/topic (§4.5). -/
def weaknessLine (o : Outcome) : String :=
  "✗ Weak area: " ++ o.skill

/-- Modelled from the spec: the positive-marker line emitted for a correct
outcome on an advanced-difficulty question (§4.5). -/
def strengthLine (o : Outcome) : String :=
  "✓ Strong performance: " ++ o.skill

/-- Modelled from the spec: the Feedback Synthesizer (§4.5) — one weakness
line per incorrect or unanswered outcome, a positive line per correct
advanced outcome, ordered by the underlying question order. -/
def synthesizeFeedback (outs : List Outcome) : List String :=
  (outs.map (fun o =>
    if isWeakness o then [weaknessLine o]
    else if o.difficulty = Difficulty.advanced then [strengthLine o]
    else [])).flatten

/-- Modelled from the spec: recommendations — at most one per distinct weak
skill/topic, a short actionable string (§4.5). -/
def synthesizeRecommendations (outs : List Outcome) : List String :=
  (((outs.filter isWeakness).map (fun o => o.skill)).dedup).map
    (fun sk => "Review " ++ sk ++ " fundamentals")

/-- Modelled from the spec: assembling the Result (§3, §4.3–§4.5):
score = sum of awarded points, max_score = Assessment.total_points,
percentage, pass verdict against the threshold, confidence label, feedback
and recommendations. -/
def mkResult (a : Assessment) (outs : List Outcome) : AssessmentResult :=
  let score := (outs.map (fun o => o.awarded)).sum
  let pct := percentageOf score a.total_points
  { score := score
    max_score := a.total_points
    percentage := pct
    confidence_level := classifyLevel pct
    passed := passThreshold ≤ pct
    feedback := synthesizeFeedback outs
    recommendations := synthesizeRecommendations outs }

/-- Modelled from the spec: `grade(Submission)` (§4.3) — look the Assessment
up in the Session Store (propagating `NotFound`/`Expired`), call
`markSubmitted` first (failing the whole operation, producing no score, if
it fails), then grade every question and assemble the Result; returns the
updated store alongside the Result. -/
def grade (ev : CodingEval) (st : Store) (sub : Submission) :
    Except GradeError (Store × AssessmentResult) := do
  let sess ← getSession st sub.assessment_id
  let st' ← markSubmitted st sub.assessment_id
  let outs := gradeOutcomes ev sess.assessment sub.answers
  Except.ok (st', mkResult sess.assessment outs)

/-- The last answer the candidate entered for `qid` across a sequence of
answer-entry events (the spec's last-write-wins policy, §9). -/
def lastEntered (evs : List (String × String)) (qid : String) : Option String :=
  ((evs.filter (fun e => e.1 = qid)).map (fun e => e.2)).getLast?

/-- Two bank questions agreeing on every client-visible field, possibly
differing in `reference_answer` — the indistinguishability relation for the
response-independence property. -/
def sameVisible (q q' : BankQuestion) : Prop :=
  q.question_id = q'.question_id ∧ q.skill = q'.skill ∧
  q.question_text = q'.question_text ∧ q.question_type = q'.question_type ∧
  q.difficulty = q'.difficulty ∧ q.options = q'.options ∧
  q.points = q'.points ∧ q.code_template = q'.code_template

/-- Concrete bank question builder for witnesses. -/
def mkQ (id sk ref : String) (ty : QuestionType) (d : Difficulty) (pts : Nat) :
    BankQuestion :=
  { question_id := id, skill := sk, question_text := id ++ "?",
    question_type := ty, difficulty := d,
    options := if ty = QuestionType.multiple_choice then some [ref, "Z"] else none,
    points := pts, reference_answer := ref, code_template := none }

/-- A concrete bank supplying exactly the default curriculum for skill
"py", in curriculum order. -/
def demoBank : List BankQuestion :=
  [mkQ "b1" "py" "A" QuestionType.multiple_choice Difficulty.beginner 2,
   mkQ "b2" "py" "A" QuestionType.multiple_choice Difficulty.beginner 2,
   mkQ "b3" "py" "A" QuestionType.multiple_choice Difficulty.beginner 2,
   mkQ "b4" "py" "A" QuestionType.multiple_choice Difficulty.beginner 2,
   mkQ "b5" "py" "A" QuestionType.multiple_choice Difficulty.beginner 2,
   mkQ "i1" "py" "A" QuestionType.multiple_choice Difficulty.intermediate 2,
   mkQ "i2" "py" "A" QuestionType.multiple_choice Difficulty.intermediate 2,
   mkQ "i3" "py" "A" QuestionType.multiple_choice Difficulty.intermediate 2,
   mkQ "i4" "py" "A" QuestionType.multiple_choice Difficulty.intermediate 2,
   mkQ "i5" "py" "A" QuestionType.multiple_choice Difficulty.intermediate 2,
   mkQ "a1" "py" "A" QuestionType.multiple_choice Difficulty.advanced 2,
   mkQ "a2" "py" "A" QuestionType.multiple_choice Difficulty.advanced 2,
   mkQ "a3" "py" "A" QuestionType.multiple_choice Difficulty.advanced 2,
   mkQ "a4" "py" "A" QuestionType.multiple_choice Difficulty.advanced 2,
   mkQ "a5" "py" "A" QuestionType.multiple_choice Difficulty.advanced 2,
   mkQ "p1" "gen" "A" QuestionType.aptitude Difficulty.beginner 2,
   mkQ "p2" "gen" "A" QuestionType.aptitude Difficulty.beginner 2,
   mkQ "p3" "gen" "A" QuestionType.aptitude Difficulty.beginner 2,
   mkQ "p4" "gen" "A" QuestionType.aptitude Difficulty.beginner 2,
   mkQ "p5" "gen" "A" QuestionType.aptitude Difficulty.beginner 2,
   mkQ "c1" "py" "out" QuestionType.coding Difficulty.advanced 2]

/-- The Assessment `compose` produces from `demoBank`. -/
def demoAssessment : Assessment :=
  { assessment_id := "t1", skill := "py", questions := demoBank,
    total_points := 42, time_limit_minutes := 45 }

/-- A minimal curriculum (one coding question) for the
response-independence witness. -/
def tinyCurriculum : Curriculum :=
  { beginnerCount := 0, intermediateCount := 0, advancedCount := 0,
    aptitudeCount := 0, codingCount := 1 }

/-- A two-question assessment for the grading witnesses. -/
def smallAssessment : Assessment :=
  { assessment_id := "s1", skill := "py",
    questions :=
      [mkQ "q1" "py" "A" QuestionType.multiple_choice Difficulty.beginner 10,
       mkQ "q2" "py" "B" QuestionType.multiple_choice Difficulty.beginner 10],
    total_points := 20, time_limit_minutes := 45 }

/-- A store holding `smallAssessment`, still open. -/
def smallStore : Store :=
  [("s1", { assessment := smallAssessment, status := SessionStatus.opened })]

/-- A concrete submission against `smallAssessment`: first answer correct,
second wrong. -/
def smallSub : Submission :=
  { assessment_id := "s1", user_id := "u1",
    answers := [{ question_id := "q1", user_answer := "A" },
                { question_id := "q2", user_answer := "C" }] }

/-- The store after grading `smallSub`: the session is submitted. -/
def smallStoreAfter : Store :=
  [("s1", { assessment := smallAssessment, status := SessionStatus.submitted })]

/-- The result of grading `smallSub` against `smallAssessment`. -/
def smallResult : AssessmentResult :=
  { score := 10, max_score := 20, percentage := 50,
    confidence_level := "Intermediate", passed := false,
    feedback := ["✗ Weak area: py"],
    recommendations := ["Review py fundamentals"] }

/-- A coding bank question for the response-independence witness. -/
def zq : BankQuestion :=
  mkQ "z1" "py" "out" QuestionType.coding Difficulty.advanced 3

/-- Variant of `zq` with a different reference answer and all visible fields equal. -/
def zq2 : BankQuestion :=
  { zq with reference_answer := "other" }

theorem lookupAnswer_setAnswer_self (a : Answers) (q v : String) :
    lookupAnswer (setAnswer a q v) q = some v := by
  induction a with
  | nil => simp [setAnswer, lookupAnswer]
  | cons e rest ih =>
      by_cases h : e.1 = q
      · simp [setAnswer, lookupAnswer, h]
      · simp [setAnswer, lookupAnswer, h, ih]

theorem lookupAnswer_setAnswer_ne (a : Answers) (q q' v : String)
    (h : q' ≠ q) : lookupAnswer (setAnswer a q v) q' = lookupAnswer a q' := by
  have h' : q ≠ q' := Ne.symm h
  induction a with
  | nil => simp [setAnswer, lookupAnswer, h']
  | cons e rest ih =>
      by_cases hk : e.1 = q
      · subst hk
        simp [setAnswer, lookupAnswer, h']
      · by_cases hk' : e.1 = q'
        · simp [setAnswer, lookupAnswer, hk, hk', h]
        · simp [setAnswer, lookupAnswer, hk, hk', ih]

theorem setAnswer_cons_self (e : String × String) (rest : Answers) (v : String) :
    setAnswer (e :: rest) e.1 v = (e.1, v) :: rest := by
  simp [setAnswer]

theorem setAnswer_cons_ne (e : String × String) (rest : Answers) (q v : String)
    (h : e.1 ≠ q) : setAnswer (e :: rest) q v = e :: setAnswer rest q v := by
  simp [setAnswer, h]

theorem mem_keys_setAnswer (a : Answers) (q v x : String) :
    x ∈ (setAnswer a q v).map Prod.fst ↔ x = q ∨ x ∈ a.map Prod.fst := by
  induction a with
  | nil => simp [setAnswer]
  | cons e rest ih =>
      by_cases h : e.1 = q
      · subst h
        rw [setAnswer_cons_self]
        simp only [List.map_cons, List.mem_cons]
        tauto
      · rw [setAnswer_cons_ne e rest q v h]
        simp only [List.map_cons, List.mem_cons, ih]
        tauto

theorem nodup_keys_setAnswer (a : Answers) (q v : String) :
    (a.map Prod.fst).Nodup → ((setAnswer a q v).map Prod.fst).Nodup := by
  induction a with
  | nil =>
      intro _
      simp [setAnswer]
  | cons e rest ih =>
      intro h
      simp only [List.map_cons, List.nodup_cons] at h
      by_cases hk : e.1 = q
      · subst hk
        rw [setAnswer_cons_self]
        simp only [List.map_cons, List.nodup_cons]
        exact h
      · rw [setAnswer_cons_ne e rest q v hk]
        simp only [List.map_cons, List.nodup_cons]
        refine ⟨?_, ih h.2⟩
        intro hx
        rcases (mem_keys_setAnswer rest q v e.1).mp hx with h1 | h1
        · exact hk h1
        · exact h.1 h1

theorem mem_setAnswer (a : Answers) (q v : String) (e : String × String) :
    e ∈ setAnswer a q v → e = (q, v) ∨ e ∈ a := by
  induction a with
  | nil =>
      intro h
      simpa [setAnswer] using h
  | cons f rest ih =>
      intro h
      by_cases hk : f.1 = q
      · subst hk
        rw [setAnswer_cons_self] at h
        rcases List.mem_cons.mp h with h | h
        · exact Or.inl h
        · exact Or.inr (List.mem_cons_of_mem f h)
      · rw [setAnswer_cons_ne f rest q v hk] at h
        rcases List.mem_cons.mp h with h | h
        · exact Or.inr (h ▸ List.mem_cons_self f rest)
        · rcases ih h with h1 | h1
          · exact Or.inl h1
          · exact Or.inr (List.mem_cons_of_mem f h1)

theorem applyEvents_concat (evs : List (String × String)) (e : String × String) :
    applyEvents (evs ++ [e]) = setAnswer (applyEvents evs) e.1 e.2 := by
  simp [applyEvents, List.foldl_append]

theorem nodup_keys_applyEvents (evs : List (String × String)) :
    ((applyEvents evs).map Prod.fst).Nodup := by
  induction evs using List.reverseRecOn with
  | nil => simp [applyEvents]
  | append_singleton evs e ih =>
      rw [applyEvents_concat]
      exact nodup_keys_setAnswer _ _ _ ih

theorem lastEntered_concat (evs : List (String × String)) (e : String × String)
    (qid : String) :
    lastEntered (evs ++ [e]) qid =
      if e.1 = qid then some e.2 else lastEntered evs qid := by
  by_cases h : e.1 = qid
  · simp [lastEntered, List.filter_append, h]
  · simp [lastEntered, List.filter_append, h]

theorem lookupAnswer_applyEvents (evs : List (String × String)) (qid : String) :
    lookupAnswer (applyEvents evs) qid = lastEntered evs qid := by
  induction evs using List.reverseRecOn with
  | nil => simp [applyEvents, lookupAnswer, lastEntered]
  | append_singleton evs e ih =>
      rw [applyEvents_concat, lastEntered_concat]
      by_cases h : e.1 = qid
      · rw [if_pos h, ← h]
        exact lookupAnswer_setAnswer_self _ _ _
      · rw [if_neg h, lookupAnswer_setAnswer_ne _ _ _ _ (fun hh => h hh.symm)]
        exact ih

theorem mem_applyEvents (evs : List (String × String)) (e : String × String)
    (h : e ∈ applyEvents evs) : e ∈ evs := by
  induction evs using List.reverseRecOn with
  | nil => simp [applyEvents] at h
  | append_singleton evs f ih =>
      rw [applyEvents_concat] at h
      rcases mem_setAnswer _ _ _ _ h with h1 | h1
      · simp [h1]
      · simp [ih h1]

theorem mem_keys_applyEvents (evs : List (String × String)) (x : String) :
    x ∈ (applyEvents evs).map Prod.fst ↔ ∃ e ∈ evs, e.1 = x := by
  induction evs using List.reverseRecOn with
  | nil => simp [applyEvents]
  | append_singleton evs f ih =>
      rw [applyEvents_concat, mem_keys_setAnswer]
      simp only [List.mem_append, List.mem_singleton]
      constructor
      · rintro (h | h)
        · exact ⟨f, Or.inr rfl, h.symm⟩
        · rcases ih.mp h with ⟨e, he, hx⟩
          exact ⟨e, Or.inl he, hx⟩
      · rintro ⟨e, he | he, hx⟩
        · exact Or.inr (ih.mpr ⟨e, he, hx⟩)
        · subst he
          exact Or.inl hx.symm

theorem lookupAnswer_eq_none_iff (a : Answers) (q : String) :
    lookupAnswer a q = none ↔ q ∉ a.map Prod.fst := by
  induction a with
  | nil => simp [lookupAnswer]
  | cons e rest ih =>
      by_cases h : e.1 = q
      · simp [lookupAnswer, h]
      · simp only [lookupAnswer, if_neg h, List.map_cons, List.mem_cons]
        constructor
        · intro hn h1
          rcases h1 with h1 | h1
          · exact h h1.symm
          · exact (ih.mp hn) h1
        · intro hn
          exact ih.mpr (fun h1 => hn (Or.inr h1))

theorem mem_of_lookupAnswer (a : Answers) (q v : String) :
    lookupAnswer a q = some v → (q, v) ∈ a := by
  induction a with
  | nil =>
      intro h
      simp [lookupAnswer] at h
  | cons e rest ih =>
      intro h
      by_cases hk : e.1 = q
      · simp only [lookupAnswer, if_pos hk] at h
        cases h
        exact List.mem_cons.mpr (Or.inl (by rw [← hk]))
      · simp only [lookupAnswer, if_neg hk] at h
        exact List.mem_cons_of_mem e (ih h)

theorem lookupAnswer_of_mem_nodup (a : Answers) (k v : String) :
    (a.map Prod.fst).Nodup → (k, v) ∈ a → lookupAnswer a k = some v := by
  induction a with
  | nil =>
      intro _ hm
      simp at hm
  | cons e rest ih =>
      intro hn hm
      simp only [List.map_cons, List.nodup_cons] at hn
      rcases List.mem_cons.mp hm with h | h
      · rw [← h]
        simp [lookupAnswer]
      · have hk : e.1 ≠ k := by
          intro he
          exact hn.1 (he ▸ List.mem_map.mpr ⟨(k, v), h, rfl⟩)
        simp [lookupAnswer, hk, ih hn.2 h]

/-- C6: for every sequence of answer entries the candidate makes, the
submission the client constructs (`page.tsx` lines 86–89 over the `answers`
object state) contains at most one AnswerRecord per `question_id`, and each
record's `user_answer` is the last answer entered for that question —
duplicate entries are resolved last-write-wins. -/
theorem duplicate_answers_last_write_wins (evs : List (String × String)) :
    ((submissionAnswers (applyEvents evs)).map (fun r => r.question_id)).Nodup ∧
    ∀ r ∈ submissionAnswers (applyEvents evs),
      some r.user_answer = lastEntered evs r.question_id := by
  constructor
  · have he : (submissionAnswers (applyEvents evs)).map (fun r => r.question_id) =
        (applyEvents evs).map Prod.fst := by
      simp [submissionAnswers]
    rw [he]
    exact nodup_keys_applyEvents evs
  · intro r hr
    rcases List.mem_map.mp hr with ⟨e, he, hre⟩
    have h1 : lookupAnswer (applyEvents evs) e.1 = some e.2 :=
      lookupAnswer_of_mem_nodup _ _ _ (nodup_keys_applyEvents evs) he
    rw [← hre]
    show some e.2 = lastEntered evs e.1
    rw [← lookupAnswer_applyEvents, h1]

/-- C10: the coding `code_template` is display-only (`page.tsx` lines
282–290): the submission contains an AnswerRecord for a question iff the
candidate entered text for it, an untouched editor shows the template but
contributes no record — the template text is never submitted as the
answer — and an answer edited back to the empty string is submitted as the
empty string. -/
theorem code_template_display_only (evs : List (String × String))
    (qid : String) (tmpl : Option String) :
    ((∀ e ∈ evs, e.1 ≠ qid) →
        (∀ r ∈ submissionAnswers (applyEvents evs), r.question_id ≠ qid) ∧
        codingEditorValue (applyEvents evs) qid tmpl = jsOrString tmpl "") ∧
    ((∃ e ∈ evs, e.1 = qid) →
        ∃ r ∈ submissionAnswers (applyEvents evs), r.question_id = qid) ∧
    (lastEntered evs qid = some "" →
        ({ question_id := qid, user_answer := "" } : AnswerRecord) ∈
          submissionAnswers (applyEvents evs)) ∧
    (∀ r ∈ submissionAnswers (applyEvents evs),
        (r.question_id, r.user_answer) ∈ evs) := by
  refine ⟨?_, ?_, ?_, ?_⟩
  · intro h
    have hnone : lookupAnswer (applyEvents evs) qid = none := by
      rw [lookupAnswer_eq_none_iff]
      intro hmem
      rcases (mem_keys_applyEvents evs qid).mp hmem with ⟨e, he, hx⟩
      exact h e he hx
    constructor
    · intro r hr
      rcases List.mem_map.mp hr with ⟨e, he, hre⟩
      intro hq
      have : e.1 = qid := by
        rw [← hre] at hq
        exact hq
      exact ((lookupAnswer_eq_none_iff _ _).mp hnone)
        (List.mem_map.mpr ⟨e, he, this⟩)
    · simp [codingEditorValue, hnone, jsOrString]
  · rintro ⟨e, he, hx⟩
    have hmem : qid ∈ (applyEvents evs).map Prod.fst :=
      (mem_keys_applyEvents evs qid).mpr ⟨e, he, hx⟩
    rcases List.mem_map.mp hmem with ⟨f, hf, hfq⟩
    exact ⟨⟨f.1, f.2⟩, List.mem_map.mpr ⟨f, hf, rfl⟩, hfq⟩
  · intro h
    have h1 : lookupAnswer (applyEvents evs) qid = some "" := by
      rw [lookupAnswer_applyEvents]
      exact h
    exact List.mem_map.mpr ⟨(qid, ""), mem_of_lookupAnswer _ _ _ h1, rfl⟩
  · intro r hr
    rcases List.mem_map.mp hr with ⟨e, he, hre⟩
    have := mem_applyEvents evs e he
    rw [← hre]
    exact this

/-- Witness for C10 at concrete inputs: an answer edited back to the empty
string is submitted as the empty string, and an untouched coding editor
shows the template. -/
theorem code_template_display_only_witness :
    (({ question_id := "c1", user_answer := "" } : AnswerRecord) ∈
        submissionAnswers (applyEvents [("c1", "x"), ("c1", "")])) ∧
    codingEditorValue (applyEvents [("c1", "x")]) "c2" (some "tpl") =
      jsOrString (some "tpl") "" := by
  constructor
  · exact (code_template_display_only [("c1", "x"), ("c1", "")] "c1"
      (some "tpl")).2.2.1 (by decide)
  · exact ((code_template_display_only [("c1", "x")] "c2"
      (some "tpl")).1 (by decide)).2

theorem weaknessLine_marked (o : Outcome) :
    jsStartsWith (weaknessLine o) "✗" = true := by
  simp [weaknessLine, jsStartsWith, List.isPrefixOf]

theorem strengthLine_not_marked (o : Outcome) :
    jsStartsWith (strengthLine o) "✗" = false := by
  simp [strengthLine, jsStartsWith, List.isPrefixOf]

theorem synthesizeFeedback_cons (o : Outcome) (outs : List Outcome) :
    synthesizeFeedback (o :: outs) =
      (if isWeakness o then [weaknessLine o]
       else if o.difficulty = Difficulty.advanced then [strengthLine o]
       else []) ++ synthesizeFeedback outs := by
  simp [synthesizeFeedback]

theorem synthesizeFeedback_weak_filter (outs : List Outcome) :
    (synthesizeFeedback outs).filter (fun f => jsStartsWith f "✗") =
      (outs.filter isWeakness).map weaknessLine := by
  induction outs with
  | nil => simp [synthesizeFeedback]
  | cons o rest ih =>
      rw [synthesizeFeedback_cons, List.filter_append, ih]
      by_cases hw : isWeakness o
      · simp [hw, List.filter_cons, weaknessLine_marked o]
      · by_cases hd : o.difficulty = Difficulty.advanced
        · simp [hw, hd, List.filter_cons, strengthLine_not_marked o]
        · simp [hw, hd]

/-- C7: the Feedback Synthesizer emits exactly one weakness line per
incorrect or unanswered outcome; each weakness line carries the same leading
negative marker the client filters on (`f.startsWith('✗')`, `page.tsx` line
166), no other feedback line carries it, and the outcomes — hence the
feedback lines — follow the underlying question order. -/
theorem feedback_one_weakness_line_per_failure (ev : CodingEval)
    (a : Assessment) (answers : List AnswerRecord) :
    (synthesizeFeedback (gradeOutcomes ev a answers)).filter
        (fun f => jsStartsWith f "✗") =
      ((gradeOutcomes ev a answers).filter isWeakness).map weaknessLine ∧
    (gradeOutcomes ev a answers).map (fun o => o.question_id) =
      a.questions.map (fun q => q.question_id) := by
  constructor
  · exact synthesizeFeedback_weak_filter _
  · simp only [gradeOutcomes, List.map_map]
    apply List.map_congr_left
    intro q _
    cases hq : answerFor answers q.question_id <;>
      simp [gradeQuestion, hq]
    · cases q.question_type <;> cases ev <;> simp

/-- C9: the result screen's "Areas for Improvement" panel (`page.tsx` lines
165–174) renders only feedback lines starting with the weakness marker, at
most the first 5 of them (later weakness lines and all other lines are never
rendered), and shows the fixed encouraging default exactly when no feedback
line starts with the marker. -/
theorem improvements_panel_rendering (fb : List String) :
    (∀ l ∈ displayedImprovements fb, jsStartsWith l "✗" = true) ∧
    (displayedImprovements fb).length ≤ 5 ∧
    (∃ t, displayedImprovements fb ++ t =
        fb.filter (fun f => jsStartsWith f "✗")) ∧
    (showsEncouragingDefault fb = true ↔
        ∀ l ∈ fb, jsStartsWith l "✗" = false) := by
  refine ⟨?_, ?_, ?_, ?_⟩
  · intro l hl
    have h1 : l ∈ fb.filter (fun f => jsStartsWith f "✗") :=
      List.take_subset 5 _ hl
    exact (List.mem_filter.mp h1).2
  · exact List.length_take_le 5 (fb.filter (fun f => jsStartsWith f "✗"))
  · exact ⟨_, List.take_append_drop 5 _⟩
  · simp only [showsEncouragingDefault, beq_iff_eq, List.length_eq_zero,
      List.filter_eq_nil_iff]
    constructor
    · intro h l hl
      simpa using h l hl
    · intro h l hl
      simpa using h l hl

theorem drawBucket_some (bank : List BankQuestion) (p : BankQuestion → Bool)
    (c : Nat) (l : List BankQuestion) :
    drawBucket bank p c = some l → l.length = c ∧ ∀ q ∈ l, p q = true := by
  intro h
  by_cases hc : c ≤ (bank.filter p).length
  · simp only [drawBucket, if_pos hc, Option.some.injEq] at h
    subst h
    refine ⟨List.length_take_of_le hc, ?_⟩
    intro q hq
    exact (List.mem_filter.mp (List.take_subset c _ hq)).2
  · simp [drawBucket, if_neg hc] at h

theorem compose_some_elim (c : Curriculum) (bank : List BankQuestion)
    (aid sk : String) (a : Assessment) :
    compose c bank aid sk = some a →
    ∃ beg inter adv apt cod,
      drawBucket bank (inTechBucket sk Difficulty.beginner) c.beginnerCount =
          some beg ∧
      drawBucket bank (inTechBucket sk Difficulty.intermediate)
          c.intermediateCount = some inter ∧
      drawBucket bank (inTechBucket sk Difficulty.advanced) c.advancedCount =
          some adv ∧
      drawBucket bank inAptitudeBucket c.aptitudeCount = some apt ∧
      drawBucket bank (inCodingBucket sk) c.codingCount = some cod ∧
      a = { assessment_id := aid
            skill := sk
            questions := beg ++ inter ++ adv ++ apt ++ cod
            total_points :=
              bucketPoints beg + bucketPoints inter + bucketPoints adv +
                bucketPoints apt + bucketPoints cod
            time_limit_minutes := 45 } := by
  intro h
  unfold compose at h
  split at h
  · case _ hb hi ha hp hc =>
      rename_i beg inter adv apt cod
      injection h with h
      exact ⟨beg, inter, adv, apt, cod, hb, hi, ha, hp, hc, h.symm⟩
  · exact Option.noConfusion h

/-- C2: for every valid skill with a sufficient question bank, `compose`
returns an Assessment whose `total_points` equals the exact sum of its
questions' points and whose question count equals the configured curriculum
total — 21 for the default curriculum; `total_points` is computed from the
questions, never set independently. -/
theorem compose_count_and_total_points (bank : List BankQuestion)
    (aid sk : String) (a : Assessment)
    (h : compose defaultCurriculum bank aid sk = some a) :
    a.questions.length = 21 ∧
    a.total_points = (a.questions.map (fun q => q.points)).sum := by
  obtain ⟨beg, inter, adv, apt, cod, hb, hi, ha, hp, hc, he⟩ :=
    compose_some_elim _ _ _ _ _ h
  have lb := (drawBucket_some _ _ _ _ hb).1
  have li := (drawBucket_some _ _ _ _ hi).1
  have la := (drawBucket_some _ _ _ _ ha).1
  have lp := (drawBucket_some _ _ _ _ hp).1
  have lc := (drawBucket_some _ _ _ _ hc).1
  subst he
  constructor
  · simp only [List.length_append, lb, li, la, lp, lc]
    rfl
  · simp [bucketPoints, List.map_append, List.sum_append, Nat.add_assoc]

/-- Witness for C2 at a concrete bank: composing the default curriculum from
`demoBank` yields 21 questions whose points sum to the assessment's
`total_points`. -/
theorem compose_count_and_total_points_witness :
    demoAssessment.questions.length = 21 ∧
    demoAssessment.total_points =
      (demoAssessment.questions.map (fun q => q.points)).sum :=
  compose_count_and_total_points demoBank "t1" "py" demoAssessment (by decide)

/-- C1: for every Assessment composed with the default 21-question
curriculum, the delivery layer's slicing (`questions.slice(step*5, (step+1)*5)`
for steps 0–4, `page.tsx` lines 112–113) partitions the ordered question
list into exactly 5 sections — four sections of 5 technical/aptitude
questions followed by a final section of exactly 1 coding question — with
every question appearing in exactly one section. -/
theorem default_sections_partition (bank : List BankQuestion)
    (aid sk : String) (a : Assessment)
    (h : compose defaultCurriculum bank aid sk = some a) :
    (displaySections (toResponse a).questions).map List.length =
        [5, 5, 5, 5, 1] ∧
    (displaySections (toResponse a).questions).flatten =
        (toResponse a).questions ∧
    (∀ s ∈ (displaySections (toResponse a).questions).take 4, ∀ q ∈ s,
        q.question_type = QuestionType.multiple_choice ∨
        q.question_type = QuestionType.aptitude) ∧
    (∃ q, q.question_type = QuestionType.coding ∧
        (displaySections (toResponse a).questions).drop 4 = [[q]]) := by
  obtain ⟨beg, inter, adv, apt, cod, hb, hi, ha, hp, hc, he⟩ :=
    compose_some_elim _ _ _ _ _ h
  obtain ⟨lb, mb⟩ := drawBucket_some _ _ _ _ hb
  obtain ⟨li, mi⟩ := drawBucket_some _ _ _ _ hi
  obtain ⟨la, ma⟩ := drawBucket_some _ _ _ _ ha
  obtain ⟨lp, mp⟩ := drawBucket_some _ _ _ _ hp
  obtain ⟨lc, mc⟩ := drawBucket_some _ _ _ _ hc
  subst he
  have hq : (toResponse
      { assessment_id := aid, skill := sk,
        questions := beg ++ inter ++ adv ++ apt ++ cod,
        total_points :=
          bucketPoints beg + bucketPoints inter + bucketPoints adv +
            bucketPoints apt + bucketPoints cod,
        time_limit_minutes := 45 }).questions =
      beg.map toClientQuestion ++ (inter.map toClientQuestion ++
        (adv.map toClientQuestion ++ (apt.map toClientQuestion ++
          cod.map toClientQuestion))) := by
    simp [toResponse, List.map_append, List.append_assoc]
  rw [hq]
  set m0 := beg.map toClientQuestion with hm0
  set m1 := inter.map toClientQuestion with hm1
  set m2 := adv.map toClientQuestion with hm2
  set m3 := apt.map toClientQuestion with hm3
  set m4 := cod.map toClientQuestion with hm4
  have lm0 : m0.length = 5 := by simp [hm0, List.length_map, lb, defaultCurriculum]
  have lm1 : m1.length = 5 := by simp [hm1, List.length_map, li, defaultCurriculum]
  have lm2 : m2.length = 5 := by simp [hm2, List.length_map, la, defaultCurriculum]
  have lm3 : m3.length = 5 := by simp [hm3, List.length_map, lp, defaultCurriculum]
  have lm4 : m4.length = 1 := by simp [hm4, List.length_map, lc, defaultCurriculum]
  set qs := m0 ++ (m1 ++ (m2 ++ (m3 ++ m4))) with hqs
  have d5 : qs.drop 5 = m1 ++ (m2 ++ (m3 ++ m4)) := List.drop_left' lm0
  have d10 : qs.drop 10 = m2 ++ (m3 ++ m4) := by
    rw [show (10 : Nat) = 5 + 5 from rfl, ← List.drop_drop, d5]
    exact List.drop_left' lm1
  have d15 : qs.drop 15 = m3 ++ m4 := by
    rw [show (15 : Nat) = 10 + 5 from rfl, ← List.drop_drop, d10]
    exact List.drop_left' lm2
  have d20 : qs.drop 20 = m4 := by
    rw [show (20 : Nat) = 15 + 5 from rfl, ← List.drop_drop, d15]
    exact List.drop_left' lm3
  have c0 : currentQuestions qs 0 = m0 := by
    show (qs.drop (0 * 5)).take 5 = m0
    rw [show (0 * 5 : Nat) = 0 from rfl, List.drop_zero]
    exact List.take_left' lm0
  have c1 : currentQuestions qs 1 = m1 := by
    show (qs.drop (1 * 5)).take 5 = m1
    rw [show (1 * 5 : Nat) = 5 from rfl, d5]
    exact List.take_left' lm1
  have c2 : currentQuestions qs 2 = m2 := by
    show (qs.drop (2 * 5)).take 5 = m2
    rw [show (2 * 5 : Nat) = 10 from rfl, d10]
    exact List.take_left' lm2
  have c3 : currentQuestions qs 3 = m3 := by
    show (qs.drop (3 * 5)).take 5 = m3
    rw [show (3 * 5 : Nat) = 15 from rfl, d15]
    exact List.take_left' lm3
  have c4 : currentQuestions qs 4 = m4 := by
    show (qs.drop (4 * 5)).take 5 = m4
    rw [show (4 * 5 : Nat) = 20 from rfl, d20]
    exact List.take_of_length_le (by rw [lm4]; omega)
  have hsec : displaySections qs = [m0, m1, m2, m3, m4] := by
    have hr : List.range 5 = [0, 1, 2, 3, 4] := rfl
    rw [displaySections, hr]
    simp only [List.map_cons, List.map_nil]
    rw [c0, c1, c2, c3, c4]
  refine ⟨?_, ?_, ?_, ?_⟩
  · rw [hsec]
    simp only [List.map_cons, List.map_nil]
    rw [lm0, lm1, lm2, lm3, lm4]
  · rw [hsec]
    simp [hqs]
  · rw [hsec]
    intro s hs
    have hmc : ∀ (b : List BankQuestion),
        (∀ x ∈ b, inTechBucket sk Difficulty.beginner x = true ∨
            inTechBucket sk Difficulty.intermediate x = true ∨
            inTechBucket sk Difficulty.advanced x = true ∨
            inAptitudeBucket x = true) →
        ∀ q ∈ b.map toClientQuestion,
          q.question_type = QuestionType.multiple_choice ∨
          q.question_type = QuestionType.aptitude := by
      intro b hball q hqm
      rcases List.mem_map.mp hqm with ⟨x, hx, hxe⟩
      have := hball x hx
      subst hxe
      rcases this with h1 | h1 | h1 | h1 <;>
        simp only [inTechBucket, inAptitudeBucket, decide_eq_true_eq] at h1
      · exact Or.inl h1.1
      · exact Or.inl h1.1
      · exact Or.inl h1.1
      · exact Or.inr h1
    rw [show [m0, m1, m2, m3, m4].take 4 = [m0, m1, m2, m3] from rfl] at hs
    simp only [List.mem_cons, List.not_mem_nil, or_false] at hs
    rcases hs with rfl | rfl | rfl | rfl
    · exact hmc beg (fun x hx => Or.inl (mb x hx))
    · exact hmc inter (fun x hx => Or.inr (Or.inl (mi x hx)))
    · exact hmc adv (fun x hx => Or.inr (Or.inr (Or.inl (ma x hx))))
    · exact hmc apt (fun x hx => Or.inr (Or.inr (Or.inr (mp x hx))))
  · rw [hsec]
    have : cod.length = 1 := by
      rw [lc]
      rfl
    obtain ⟨x, hx⟩ := List.length_eq_one.mp this
    refine ⟨toClientQuestion x, ?_, ?_⟩
    · have hcx := mc x (by simp [hx])
      simp only [inCodingBucket, decide_eq_true_eq] at hcx
      exact hcx.1
    · simp [hm4, hx]

/-- Witness for C1: the sections of the assessment composed from
`demoBank`. -/
theorem default_sections_partition_witness :
    (displaySections (toResponse demoAssessment).questions).map List.length =
        [5, 5, 5, 5, 1] ∧
    (displaySections (toResponse demoAssessment).questions).flatten =
        (toResponse demoAssessment).questions ∧
    (∀ s ∈ (displaySections (toResponse demoAssessment).questions).take 4,
        ∀ q ∈ s,
        q.question_type = QuestionType.multiple_choice ∨
        q.question_type = QuestionType.aptitude) ∧
    (∃ q, q.question_type = QuestionType.coding ∧
        (displaySections (toResponse demoAssessment).questions).drop 4 =
          [[q]]) :=
  default_sections_partition demoBank "t1" "py" demoAssessment (by decide)

/-- C4: for every multiple_choice, theoretical or aptitude question, grading
awards full points exactly when the user answer equals the reference answer
under exact, case-sensitive, whitespace-trimmed comparison, 0 points for any
other string, and nothing in between — no partial credit. -/
theorem closed_form_no_partial_credit (ev : CodingEval) (q : BankQuestion)
    (ans : String)
    (hq : q.question_type = QuestionType.multiple_choice ∨
          q.question_type = QuestionType.theoretical ∨
          q.question_type = QuestionType.aptitude) :
    (strTrim ans = strTrim q.reference_answer →
        (gradeQuestion ev q (some ans)).awarded = q.points) ∧
    (strTrim ans ≠ strTrim q.reference_answer →
        (gradeQuestion ev q (some ans)).awarded = 0) ∧
    ((gradeQuestion ev q (some ans)).awarded = q.points ∨
        (gradeQuestion ev q (some ans)).awarded = 0) ∧
    ((gradeQuestion ev q (some ans)).correct = true ↔
        strTrim ans = strTrim q.reference_answer) := by
  have hred : gradeQuestion ev q (some ans) =
      { question_id := q.question_id, skill := q.skill,
        difficulty := q.difficulty, answered := true,
        correct := closedFormCorrect q ans, ungraded := false,
        awarded := if closedFormCorrect q ans then q.points else 0,
        points := q.points } := by
    rcases hq with hq | hq | hq <;>
      simp [gradeQuestion, hq]
  rw [hred]
  by_cases h : strTrim ans = strTrim q.reference_answer <;>
    simp [closedFormCorrect, h]

/-- Witness for C4: submitting the exact reference answer of a concrete
multiple-choice question yields its full points. -/
theorem closed_form_no_partial_credit_witness :
    (gradeQuestion none
        (mkQ "q1" "py" "A" QuestionType.multiple_choice Difficulty.beginner 10)
        (some "A")).awarded =
      (mkQ "q1" "py" "A" QuestionType.multiple_choice Difficulty.beginner
        10).points :=
  (closed_form_no_partial_credit none
    (mkQ "q1" "py" "A" QuestionType.multiple_choice Difficulty.beginner 10)
    "A" (Or.inl rfl)).1 rfl

theorem storeGet_storeSet_self (st : Store) (aid : String) (s s' : Session) :
    storeGet st aid = some s → storeGet (storeSet st aid s') aid = some s' := by
  induction st with
  | nil =>
      intro h
      simp [storeGet] at h
  | cons e rest ih =>
      intro h
      by_cases hk : e.1 = aid
      · simp [storeGet, storeSet, hk]
      · simp only [storeGet, if_neg hk] at h
        simp only [storeSet]
        rw [if_neg hk]
        simp only [storeGet, if_neg hk]
        exact ih h

theorem getSession_of_status (st : Store) (aid : String) (s : Session)
    (h : storeGet st aid = some s)
    (hs : s.status ≠ SessionStatus.expired) :
    getSession st aid = Except.ok s := by
  obtain ⟨sa, sst⟩ := s
  unfold getSession
  rw [h]
  cases sst with
  | expired => exact absurd rfl hs
  | opened => rfl
  | submitted => rfl

theorem markSubmitted_opened (st : Store) (aid : String) (s : Session)
    (h : storeGet st aid = some s) (hs : s.status = SessionStatus.opened) :
    markSubmitted st aid =
      Except.ok (storeSet st aid { s with status := SessionStatus.submitted }) := by
  obtain ⟨sa, sst⟩ := s
  cases sst with
  | opened =>
      unfold markSubmitted
      rw [h]
  | submitted => simp at hs
  | expired => simp at hs

theorem markSubmitted_submitted (st : Store) (aid : String) (s : Session)
    (h : storeGet st aid = some s) (hs : s.status = SessionStatus.submitted) :
    markSubmitted st aid = Except.error GradeError.AlreadySubmitted := by
  obtain ⟨sa, sst⟩ := s
  cases sst with
  | submitted =>
      unfold markSubmitted
      rw [h]
  | opened => simp at hs
  | expired => simp at hs

theorem grade_ok_elim (ev : CodingEval) (st : Store) (sub : Submission)
    (st' : Store) (r : AssessmentResult) :
    grade ev st sub = Except.ok (st', r) →
    ∃ sess, storeGet st sub.assessment_id = some sess ∧
      sess.status = SessionStatus.opened ∧
      st' = storeSet st sub.assessment_id
        { sess with status := SessionStatus.submitted } ∧
      r = mkResult sess.assessment
        (gradeOutcomes ev sess.assessment sub.answers) := by
  intro h
  unfold grade at h
  cases hg : storeGet st sub.assessment_id with
  | none =>
      rw [show getSession st sub.assessment_id =
          Except.error GradeError.NotFound from by
        unfold getSession
        rw [hg]] at h
      simp [Bind.bind, Except.bind] at h
  | some sess =>
      obtain ⟨sa, sst⟩ := sess
      cases sst with
      | expired =>
          rw [show getSession st sub.assessment_id =
              Except.error GradeError.Expired from by
            unfold getSession
            rw [hg]] at h
          simp [Bind.bind, Except.bind] at h
      | submitted =>
          rw [getSession_of_status st _ _ hg (by intro hh; simp at hh),
            markSubmitted_submitted st _ _ hg rfl] at h
          simp [Bind.bind, Except.bind] at h
      | opened =>
          rw [getSession_of_status st _ _ hg (by intro hh; simp at hh),
            markSubmitted_opened st _ _ hg rfl] at h
          simp only [Bind.bind, Except.bind, Except.ok.injEq,
            Prod.mk.injEq] at h
          exact ⟨{ assessment := sa, status := SessionStatus.opened }, rfl,
            rfl, h.1.symm, h.2.symm⟩

/-- C3: grading succeeds at most once per assessment_id — a successful
`grade` transitions the stored session to submitted via `markSubmitted`, and
any subsequent `grade` for the same assessment_id fails with
`AlreadySubmitted`, producing no score. -/
theorem grade_at_most_once (ev ev2 : CodingEval) (st : Store)
    (sub sub2 : Submission) (st' : Store) (r : AssessmentResult)
    (h : grade ev st sub = Except.ok (st', r))
    (hid : sub2.assessment_id = sub.assessment_id) :
    (∃ s, storeGet st' sub.assessment_id = some s ∧
        s.status = SessionStatus.submitted) ∧
    grade ev2 st' sub2 = Except.error GradeError.AlreadySubmitted := by
  obtain ⟨sess, hg, hop, hset, hr⟩ := grade_ok_elim ev st sub st' r h
  have hkey : storeGet st' sub.assessment_id =
      some { sess with status := SessionStatus.submitted } := by
    rw [hset]
    exact storeGet_storeSet_self st _ sess _ hg
  refine ⟨⟨_, hkey, rfl⟩, ?_⟩
  unfold grade
  rw [hid]
  rw [getSession_of_status st' _ _ hkey (by intro hh; cases hh),
    markSubmitted_submitted st' _ _ hkey rfl]
  rfl

/-- Witness for C3: grading the small store once succeeds; a second grade of
the same assessment_id fails with AlreadySubmitted. -/
theorem grade_at_most_once_witness :
    (∃ s, storeGet smallStoreAfter "s1" = some s ∧
        s.status = SessionStatus.submitted) ∧
    grade none smallStoreAfter smallSub =
      Except.error GradeError.AlreadySubmitted :=
  grade_at_most_once none none smallStore smallSub smallSub smallStoreAfter
    smallResult rfl rfl

theorem gradeQuestion_awarded_le (ev : CodingEval)
    (hev : ∀ f, ev = some f → ∀ ref ansS, (f ref ansS).1 ≤ (f ref ansS).2)
    (q : BankQuestion) (ans? : Option String) :
    (gradeQuestion ev q ans?).awarded ≤ q.points := by
  cases ans? with
  | none => simp [gradeQuestion]
  | some ans =>
      cases htype : q.question_type with
      | coding | code =>
          cases hev' : ev with
          | none => simp [gradeQuestion, htype, hev']
          | some f =>
              simp only [gradeQuestion, htype, hev']
              by_cases hd : (f q.reference_answer ans).2 = 0
              · simp [hd]
              · simp only [hd, if_neg, ite_false]
                have hnd := hev f hev' q.reference_answer ans
                calc (f q.reference_answer ans).1 * q.points /
                      (f q.reference_answer ans).2 ≤
                    (f q.reference_answer ans).2 * q.points /
                      (f q.reference_answer ans).2 :=
                      Nat.div_le_div_right (Nat.mul_le_mul_right q.points hnd)
                  _ = q.points := by
                      rw [Nat.mul_comm]
                      exact Nat.mul_div_cancel q.points (Nat.pos_of_ne_zero hd)
      | multiple_choice =>
          simp only [gradeQuestion, htype]
          split <;> simp
      | theoretical =>
          simp only [gradeQuestion, htype]
          split <;> simp
      | aptitude =>
          simp only [gradeQuestion, htype]
          split <;> simp

theorem percentageOf_le_100 (s m : Nat) (h : s ≤ m) : percentageOf s m ≤ 100 := by
  unfold percentageOf
  by_cases hm : m = 0
  · simp [hm]
  · rw [if_neg hm]
    have hmp : 0 < m := Nat.pos_of_ne_zero hm
    have h1 : 200 * s + m ≤ 201 * m := by nlinarith
    calc (200 * s + m) / (2 * m) ≤ 201 * m / (2 * m) := Nat.div_le_div_right h1
      _ ≤ 100 := by
          rw [Nat.div_le_iff_le_mul_add_pred (by omega)]
          omega

/-- C5: for every graded Submission, score is the sum of awarded points,
max_score is the Assessment's total_points, percentage is
round(100 × score / max_score) (defined as 0 when max_score = 0), the
percentage always lies in [0, 100] (being a natural number it is
nonnegative), and passed holds exactly when the percentage reaches the
configured pass threshold of 60. -/
theorem result_aggregates (ev : CodingEval) (st : Store) (sub : Submission)
    (st' : Store) (r : AssessmentResult)
    (hev : ∀ f, ev = some f → ∀ ref ansS, (f ref ansS).1 ≤ (f ref ansS).2)
    (hw : ∀ s, storeGet st sub.assessment_id = some s →
        s.assessment.total_points =
          (s.assessment.questions.map (fun q => q.points)).sum)
    (h : grade ev st sub = Except.ok (st', r)) :
    ∃ sess, storeGet st sub.assessment_id = some sess ∧
      r.score = ((gradeOutcomes ev sess.assessment sub.answers).map
        (fun o => o.awarded)).sum ∧
      r.max_score = sess.assessment.total_points ∧
      r.percentage = percentageOf r.score r.max_score ∧
      r.percentage ≤ 100 ∧
      (r.passed = true ↔ passThreshold ≤ r.percentage) := by
  obtain ⟨sess, hg, hop, hset, hr⟩ := grade_ok_elim ev st sub st' r h
  refine ⟨sess, hg, ?_, ?_, ?_, ?_, ?_⟩ <;> rw [hr]
  · rfl
  · rfl
  · rfl
  · have hsc : ((gradeOutcomes ev sess.assessment sub.answers).map
        (fun o => o.awarded)).sum ≤ sess.assessment.total_points := by
      rw [hw sess hg]
      simp only [gradeOutcomes, List.map_map]
      exact List.sum_le_sum (fun q _ => gradeQuestion_awarded_le ev hev q _)
    exact percentageOf_le_100 _ _ hsc
  · simp [mkResult]

/-- Witness for C5 at the concrete small store: grading yields 10/20,
percentage 50 within [0, 100], and a failing verdict against threshold 60. -/
theorem result_aggregates_witness :
    ∃ sess, storeGet smallStore "s1" = some sess ∧
      smallResult.score = ((gradeOutcomes none sess.assessment
        smallSub.answers).map (fun o => o.awarded)).sum ∧
      smallResult.max_score = sess.assessment.total_points ∧
      smallResult.percentage =
        percentageOf smallResult.score smallResult.max_score ∧
      smallResult.percentage ≤ 100 ∧
      (smallResult.passed = true ↔ passThreshold ≤ smallResult.percentage) :=
  result_aggregates none smallStore smallSub smallStoreAfter smallResult
    (fun f hf => Option.noConfusion hf)
    (by
      intro s hs
      have h3 : some (⟨smallAssessment, SessionStatus.opened⟩ : Session) =
          some s := hs
      cases h3
      decide)
    rfl

theorem sameVisible_toClient {q q' : BankQuestion} (h : sameVisible q q') :
    toClientQuestion q = toClientQuestion q' := by
  obtain ⟨h1, h2, h3, h4, h5, h6, h7, h8⟩ := h
  simp [toClientQuestion, h1, h2, h3, h4, h5, h6, h7, h8]

theorem forall2_filter_congr (p p' : BankQuestion → Bool)
    (hp : ∀ q q', sameVisible q q' → p q = p' q') :
    ∀ (l l' : List BankQuestion), List.Forall₂ sameVisible l l' →
      List.Forall₂ sameVisible (l.filter p) (l'.filter p') := by
  intro l l' h
  induction h with
  | nil => exact List.Forall₂.nil
  | cons h1 h2 ih =>
      rename_i x y xs ys
      rw [List.filter_cons, List.filter_cons, ← hp x y h1]
      by_cases hx : p x
      · simp only [hx, if_pos]
        exact List.Forall₂.cons h1 ih
      · simp only [hx, Bool.false_eq_true, if_false]
        exact ih

theorem forall2_map_toClient :
    ∀ (l l' : List BankQuestion), List.Forall₂ sameVisible l l' →
      l.map toClientQuestion = l'.map toClientQuestion := by
  intro l l' h
  induction h with
  | nil => rfl
  | cons h1 h2 ih =>
      simp only [List.map_cons, ih, sameVisible_toClient h1]

theorem forall2_bucketPoints :
    ∀ (l l' : List BankQuestion), List.Forall₂ sameVisible l l' →
      bucketPoints l = bucketPoints l' := by
  intro l l' h
  induction h with
  | nil => rfl
  | cons h1 h2 ih =>
      simp only [bucketPoints, List.map_cons, List.sum_cons] at ih ⊢
      rw [ih, h1.2.2.2.2.2.2.1]

theorem drawBucket_congr (bank bank' : List BankQuestion)
    (hb : List.Forall₂ sameVisible bank bank') (p p' : BankQuestion → Bool)
    (hp : ∀ q q', sameVisible q q' → p q = p' q') (c : Nat) :
    (drawBucket bank p c = none ∧ drawBucket bank' p' c = none) ∨
    ∃ u u', drawBucket bank p c = some u ∧ drawBucket bank' p' c = some u' ∧
      List.Forall₂ sameVisible u u' := by
  have hf := forall2_filter_congr p p' hp bank bank' hb
  have hlen := List.Forall₂.length_eq hf
  by_cases hc : c ≤ (bank.filter p).length
  · right
    refine ⟨(bank.filter p).take c, (bank'.filter p').take c, ?_, ?_, ?_⟩
    · simp [drawBucket, if_pos hc]
    · simp [drawBucket, if_pos (hlen ▸ hc)]
    · exact List.forall₂_take c hf
  · left
    constructor
    · simp [drawBucket, if_neg hc]
    · have hc' : ¬c ≤ (bank'.filter p').length := by
        rw [← hlen]
        exact hc
      simp [drawBucket, if_neg hc']

theorem toResponse_congr (aid sk : String)
    (u1 u2 u3 u4 u5 v1 v2 v3 v4 v5 : List BankQuestion)
    (h1 : List.Forall₂ sameVisible u1 v1)
    (h2 : List.Forall₂ sameVisible u2 v2)
    (h3 : List.Forall₂ sameVisible u3 v3)
    (h4 : List.Forall₂ sameVisible u4 v4)
    (h5 : List.Forall₂ sameVisible u5 v5) :
    toResponse
      { assessment_id := aid, skill := sk,
        questions := u1 ++ u2 ++ u3 ++ u4 ++ u5,
        total_points :=
          bucketPoints u1 + bucketPoints u2 + bucketPoints u3 +
            bucketPoints u4 + bucketPoints u5,
        time_limit_minutes := 45 } =
    toResponse
      { assessment_id := aid, skill := sk,
        questions := v1 ++ v2 ++ v3 ++ v4 ++ v5,
        total_points :=
          bucketPoints v1 + bucketPoints v2 + bucketPoints v3 +
            bucketPoints v4 + bucketPoints v5,
        time_limit_minutes := 45 } := by
  simp only [toResponse, List.map_append]
  rw [forall2_map_toClient _ _ h1, forall2_map_toClient _ _ h2,
    forall2_map_toClient _ _ h3, forall2_map_toClient _ _ h4,
    forall2_map_toClient _ _ h5, forall2_bucketPoints _ _ h1,
    forall2_bucketPoints _ _ h2, forall2_bucketPoints _ _ h3,
    forall2_bucketPoints _ _ h4, forall2_bucketPoints _ _ h5]

/-- C8: the generation response is independent of the reference answers —
composing from any two banks that agree on every client-visible field
(possibly differing in every `reference_answer`/rubric) yields identical
responses, and the client-facing `Question` carries no `reference_answer`
field, so no response ever contains one. -/
theorem response_independent_of_reference_answers (c : Curriculum)
    (bank bank' : List BankQuestion)
    (hb : List.Forall₂ sameVisible bank bank') (aid sk : String) :
    (compose c bank aid sk).map toResponse =
      (compose c bank' aid sk).map toResponse := by
  have hpT : ∀ d (q q' : BankQuestion), sameVisible q q' →
      inTechBucket sk d q = inTechBucket sk d q' := by
    intro d q q' h
    obtain ⟨_, h2, _, h4, h5, _, _, _⟩ := h
    simp [inTechBucket, h2, h4, h5]
  have hpA : ∀ (q q' : BankQuestion), sameVisible q q' →
      inAptitudeBucket q = inAptitudeBucket q' := by
    intro q q' h
    obtain ⟨_, _, _, h4, _, _, _, _⟩ := h
    simp [inAptitudeBucket, h4]
  have hpC : ∀ (q q' : BankQuestion), sameVisible q q' →
      inCodingBucket sk q = inCodingBucket sk q' := by
    intro q q' h
    obtain ⟨_, h2, _, h4, _, _, _, _⟩ := h
    simp [inCodingBucket, h2, h4]
  unfold compose
  rcases drawBucket_congr bank bank' hb _ _ (hpT Difficulty.beginner)
      c.beginnerCount with ⟨hn, hn'⟩ | ⟨u1, v1, hu1, hv1, hf1⟩
  · rw [hn, hn']
  rcases drawBucket_congr bank bank' hb _ _ (hpT Difficulty.intermediate)
      c.intermediateCount with ⟨hn, hn'⟩ | ⟨u2, v2, hu2, hv2, hf2⟩
  · rw [hu1, hv1, hn, hn']
  rcases drawBucket_congr bank bank' hb _ _ (hpT Difficulty.advanced)
      c.advancedCount with ⟨hn, hn'⟩ | ⟨u3, v3, hu3, hv3, hf3⟩
  · rw [hu1, hv1, hu2, hv2, hn, hn']
  rcases drawBucket_congr bank bank' hb _ _ hpA c.aptitudeCount with
      ⟨hn, hn'⟩ | ⟨u4, v4, hu4, hv4, hf4⟩
  · rw [hu1, hv1, hu2, hv2, hu3, hv3, hn, hn']
  rcases drawBucket_congr bank bank' hb _ _ hpC c.codingCount with
      ⟨hn, hn'⟩ | ⟨u5, v5, hu5, hv5, hf5⟩
  · rw [hu1, hv1, hu2, hv2, hu3, hv3, hu4, hv4, hn, hn']
  rw [hu1, hv1, hu2, hv2, hu3, hv3, hu4, hv4, hu5, hv5]
  exact congrArg some (toResponse_congr aid sk u1 u2 u3 u4 u5 v1 v2 v3 v4 v5
    hf1 hf2 hf3 hf4 hf5)

/-- Witness for C8: two one-question banks differing only in the coding
question's reference answer produce identical responses. -/
theorem response_independence_witness :
    (compose tinyCurriculum [zq] "g1" "py").map toResponse =
      (compose tinyCurriculum [zq2] "g1" "py").map toResponse :=
  response_independent_of_reference_answers tinyCurriculum [zq] [zq2]
    (List.Forall₂.cons ⟨rfl, rfl, rfl, rfl, rfl, rfl, rfl, rfl⟩
      List.Forall₂.nil) "g1" "py"

end SkillLens
